import Mathlib

/-!
Formal model of the `gongja_mailservice` counseling pipeline.

The Python sources (`gongja.py`, `utils.py`, `send_mail.py`) are embedded
shallowly: Python strings are modelled as `List Char` (or `String` at the
interfaces), the values produced by `json.loads` as the inductive type
`Json`, and effectful steps (model calls, CSV appends, prints, raised
exceptions) as explicit traces and `Option`/`Except` results.
-/

/- ### Python string primitives -/

/-- Characters stripped by Python `str.strip()` with no argument (the
ASCII whitespace characters; the repository's data never carries the
further Unicode whitespace code points). -/
def isPyWs (c : Char) : Bool :=
  c = ' ' || c = '\t' || c = '\n' || c = '\r' || c = '\x0b' || c = '\x0c'

/-- Membership test for the character set given to `str.strip(chars)`. -/
def memSet (cs : List Char) (c : Char) : Bool := cs.contains c

/-- Drop characters satisfying `p` from both ends, as Python `strip` does. -/
def dropAroundWhile (p : Char → Bool) (l : List Char) : List Char :=
  ((l.dropWhile p).reverse.dropWhile p).reverse

/-- Python `s.strip()`. -/
def pstrip (l : List Char) : List Char := dropAroundWhile isPyWs l

/-- Python `s.strip(chars)`. -/
def pstripSet (cs : List Char) (l : List Char) : List Char :=
  dropAroundWhile (memSet cs) l

/-- Everything after the first occurrence of `m` in the list (the whole
list tail past that occurrence; empty when `m` does not occur). -/
def dropThroughFirst (m : List Char) : List Char → List Char
  | [] => []
  | c :: cs => if m <+: (c :: cs) then (c :: cs).drop m.length else dropThroughFirst m cs

/-- Prefix of the list up to (excluding) the first occurrence of `m`. -/
def takeUntil (m : List Char) : List Char → List Char
  | [] => []
  | c :: cs => if m <+: (c :: cs) then [] else c :: takeUntil m cs

/-- Python `l.split(m)[1]`: the segment strictly between the first
occurrence of `m` and the next occurrence (or the end when `m` occurs
only once). -/
def splitSecond (m l : List Char) : List Char := takeUntil m (dropThroughFirst m l)

/-- Python `str.lower()`, character by character. Only ASCII letters are
case-mapped; every character this repository tests for is unchanged by
the full Unicode mapping as well. -/
def pyLowerChar (c : Char) : Char :=
  if 65 ≤ c.toNat ∧ c.toNat ≤ 90 then Char.ofNat (c.toNat + 32) else c

/-- Python `s.lower()` on a character list. -/
def pyLower (l : List Char) : List Char := l.map pyLowerChar

/- ### JSON values and a model of `json.loads` -/

/-- JSON values as returned by Python `json.loads`. Numbers are
restricted to integers and objects keep their members in source order
with no duplicate-key overriding; the payloads this repository
exchanges with the model stay inside this fragment. -/
inductive Json where
  | null
  | bool (b : Bool)
  | num (n : Int)
  | str (s : String)
  | arr (elems : List Json)
  | obj (fields : List (String × Json))

/-- Python truthiness `bool(v)` of a decoded JSON value, as used by
`if not gomin_result["STEP-2"]` and `if advice_result`. -/
def Json.truthy : Json → Bool
  | .null => false
  | .bool b => b
  | .num n => decide (n ≠ 0)
  | .str s => !s.isEmpty
  | .arr xs => !xs.isEmpty
  | .obj fs => !fs.isEmpty

/-- Python `d[key]` on a decoded value; `none` models the raised
`KeyError` (missing key) or `TypeError` (not a dict). -/
def Json.getKey : Json → String → Option Json
  | .obj fs, k => fs.lookup k
  | _, _ => none

/-- Whitespace skipped between JSON tokens. -/
def jsonWs (c : Char) : Bool := c = ' ' || c = '\t' || c = '\n' || c = '\r'

def skipJsonWs (l : List Char) : List Char := l.dropWhile jsonWs

/-- Read one JSON string body up to the closing quote, resolving the
single-character escapes. Unicode `\u` escapes are not modelled; they do
not occur in this repository's payloads. -/
def parseJsonStringBody : Nat → List Char → Option (List Char × List Char)
  | 0, _ => none
  | _, [] => none
  | fuel + 1, c :: rest =>
    if c = '"' then some ([], rest)
    else if c = '\\' then
      match rest with
      | [] => none
      | e :: rest2 =>
        let esc : Option Char :=
          if e = '"' then some '"'
          else if e = '\\' then some '\\'
          else if e = '/' then some '/'
          else if e = 'n' then some '\n'
          else if e = 't' then some '\t'
          else if e = 'r' then some '\r'
          else if e = 'b' then some '\x08'
          else if e = 'f' then some '\x0c'
          else none
        match esc with
        | none => none
        | some ch =>
          match parseJsonStringBody fuel rest2 with
          | some (s, r) => some (ch :: s, r)
          | none => none
    else
      match parseJsonStringBody fuel rest with
      | some (s, r) => some (c :: s, r)
      | none => none

def digitsToNat (ds : List Char) : Nat :=
  ds.foldl (fun a c => a * 10 + (c.toNat - 48)) 0

/-- Parse a JSON integer literal. Fraction and exponent forms are
rejected by this model (the repository's payloads only use integers). -/
def parseJsonInt (l : List Char) : Option (Int × List Char) :=
  let core : List Char → Option (Nat × List Char) := fun m =>
    let ds := m.takeWhile Char.isDigit
    let rest := m.dropWhile Char.isDigit
    if ds.isEmpty then none
    else
      match rest with
      | c :: _ => if c = '.' || c = 'e' || c = 'E' then none else some (digitsToNat ds, rest)
      | [] => some (digitsToNat ds, [])
  match l with
  | '-' :: m =>
    match core m with
    | some (n, rest) => some (-(n : Int), rest)
    | none => none
  | _ =>
    match core l with
    | some (n, rest) => some ((n : Int), rest)
    | none => none

mutual

/-- Recursive-descent JSON value parser, fueled for termination. -/
def parseJsonValue : Nat → List Char → Option (Json × List Char)
  | 0, _ => none
  | fuel + 1, l =>
    match skipJsonWs l with
    | [] => none
    | c :: rest =>
      if c = 'n' then
        if ['u', 'l', 'l'] <+: rest then some (.null, rest.drop 3) else none
      else if c = 't' then
        if ['r', 'u', 'e'] <+: rest then some (.bool true, rest.drop 3) else none
      else if c = 'f' then
        if ['a', 'l', 's', 'e'] <+: rest then some (.bool false, rest.drop 4) else none
      else if c = '"' then
        match parseJsonStringBody (fuel + 1) rest with
        | some (s, r) => some (.str (String.mk s), r)
        | none => none
      else if c = '-' || c.isDigit then
        match parseJsonInt (c :: rest) with
        | some (n, r) => some (.num n, r)
        | none => none
      else if c = '[' then
        match skipJsonWs rest with
        | ']' :: r2 => some (.arr [], r2)
        | r2 =>
          match parseJsonElems fuel r2 with
          | some (es, r3) => some (.arr es, r3)
          | none => none
      else if c = '\x7b' then
        match skipJsonWs rest with
        | '\x7d' :: r2 => some (.obj [], r2)
        | r2 =>
          match parseJsonMembers fuel r2 with
          | some (ms, r3) => some (.obj ms, r3)
          | none => none
      else none

/-- Comma-separated array elements after `[`. -/
def parseJsonElems : Nat → List Char → Option (List Json × List Char)
  | 0, _ => none
  | fuel + 1, l =>
    match parseJsonValue fuel l with
    | none => none
    | some (v, r) =>
      match skipJsonWs r with
      | ',' :: r2 =>
        match parseJsonElems fuel r2 with
        | some (vs, r3) => some (v :: vs, r3)
        | none => none
      | ']' :: r2 => some ([v], r2)
      | _ => none

/-- Comma-separated object members after the opening brace. -/
def parseJsonMembers : Nat → List Char → Option (List (String × Json) × List Char)
  | 0, _ => none
  | fuel + 1, l =>
    match skipJsonWs l with
    | '"' :: r =>
      match parseJsonStringBody (fuel + 1) r with
      | none => none
      | some (k, r2) =>
        match skipJsonWs r2 with
        | ':' :: r3 =>
          match parseJsonValue fuel r3 with
          | none => none
          | some (v, r4) =>
            match skipJsonWs r4 with
            | ',' :: r5 =>
              match parseJsonMembers fuel r5 with
              | some (ms, r6) => some ((String.mk k, v) :: ms, r6)
              | none => none
            | '\x7d' :: r5 => some ([(String.mk k, v)], r5)
            | _ => none
        | _ => none
    | _ => none

end

/-- Model of Python `json.loads`: parse one value and require only
trailing whitespace; `none` models the raised `JSONDecodeError`. -/
def json_loads (l : List Char) : Option Json :=
  match parseJsonValue (2 * l.length + 8) l with
  | some (v, rest) => if (skipJsonWs rest).isEmpty then some v else none
  | none => none

/- ### gongja.py: response extraction -/

/-- The literal marker `<출력 결과>` that `_parse_response` looks for. -/
def resultMarker : List Char := "<출력 결과>".data

/-- The triple-backtick code-fence marker. -/
def fenceMarker : List Char := "```".data

/-- Character set of the final `strip(': \n')` pass. -/
def stripColonSet : List Char := [':', ' ', '\n']

/-- Marker pass of `GongjaProcessor._parse_response`:
`content.split('<출력 결과>')[1].strip()` when the marker occurs in the
text, plain `content.strip()` otherwise. -/
def markerStep (content : List Char) : List Char :=
  if resultMarker <:+: content then pstrip (splitSecond resultMarker content)
  else pstrip content

/-- Fence pass of `GongjaProcessor._parse_response`: when the text
starts with a triple-backtick fence, drop everything up to the first
newline (and strip) if there is one, and then drop a trailing fence
(and strip) whenever the current text ends with one. -/
def fenceStep (jt : List Char) : List Char :=
  if fenceMarker <+: jt then
    let a : List Char :=
      match jt.findIdx? (fun c => c = '\n') with
      | some i => pstrip (jt.drop i)
      | none => jt
    if fenceMarker <:+ a then pstrip (a.take (a.length - 3)) else a
  else jt

/-- Text-cleaning passes of `GongjaProcessor._parse_response` in order:
marker split, fence handling, and the final `strip(': \n')`. -/
def cleanJsonText (content : List Char) : List Char :=
  pstripSet stripColonSet (fenceStep (markerStep content))

/-- The structured record `_parse_response` recovers from a reply text;
`none` models the inner `json.JSONDecodeError`. -/
def extractRecord (content : List Char) : Option Json :=
  json_loads (cleanJsonText content)

/-- Observable outcome of `_parse_response`: the returned mapping or the
raised `ValueError` (whose message is the only payload the caller can
catch), plus the `print` diagnostics in order. -/
structure ParseResponseOut where
  outcome : Except String Json
  printed : List String

/-- Full `GongjaProcessor._parse_response` on the reply text `content`
(the `response['choices'][0]['message']['content']` projection of the
API response is applied by the caller in this model). The
`JSONDecodeError` detail text is abbreviated to `Expecting value`. -/
def parse_response (content : String) : ParseResponseOut :=
  let jt : List Char := cleanJsonText content.data
  match json_loads jt with
  | some v => ⟨.ok v, ["원본 content: " ++ content]⟩
  | none =>
    ⟨.error "JSON 파싱 실패",
      ["원본 content: " ++ content,
       "JSON 디코딩 오류: Expecting value",
       "파싱 시도한 텍스트: " ++ String.mk jt,
       "응답 파싱 중 오류 발생: Expecting value",
       "원본 응답: " ++ content]⟩

/-- A model reply of the shape the specification describes for the
fenced case: the marker, then a fenced block whose first line is the
language tag `json`, around the body `s`. -/
def markerFencedWrap (s : List Char) : List Char :=
  resultMarker ++ "```json\n".data ++ s ++ "\n```".data

/- ### gongja.py: prompt templates -/

/-- Text of `_get_gomin_template` before the fenced worry text (the
f-string rendered verbatim, including its indentation). -/
def gominTemplateHead : String :=
  "\n        당신은 상대방의 고민을 상담하고 있습니다.\n        논어의 핵심 내용을 바탕으로 상대방의 고민에 도움을 줄 수 있는 한자를 반환해야 합니다.\n\n        STEP별로 작업을 수행하면서 그 결과를 아래의 <출력 결과> JSON 포맷에 작성하세요.\n        STEP-1. 아래 세 개의 백틱으로 구분된 텍스트를 원문 그대로 읽어올 것\n        STEP-2. 입력받은 텍스트가 고민이 아니라면 false를 표기하고 STEP-3를 진행하지 말 것. ex) 안녕하세요 -> false\n        STEP-3. 텍스트에 어떤 <고민>이 들어있는지 요약할 것\n        STEP-4. <고민>에서 나타나는 상대방의 <부족함>을 이야기하고, 그와 관련된 仁의 <하위개념>이 무엇인지 고르고, <선택한 이유>와 함께 반환할 것\n        "

/-- Text of `_get_gomin_template` after the fenced worry text. -/
def gominTemplateTail : String :=
  "\n        ---\n        <출력 결과> : \x7b\"STEP-1\": <입력텍스트>, \"STEP-2\": <True/False>, \"STEP-3\": \x7b\"요약\": <고민>\x7d, \"STEP-4\": \x7b\"부족함\": <부족함>, \"하위개념\": <하위개념>, \"이유\": <선택한 이유>\x7d\x7d\n        "

/-- `GongjaProcessor._get_gomin_template`: the classification prompt,
embedding the worry text verbatim between triple-backtick fences. -/
def get_gomin_template (text : String) : String :=
  gominTemplateHead ++ "```" ++ text ++ "```" ++ gominTemplateTail

/-- One corpus entry as `_load_random_noneo` keeps it: `pyeon` models the
key `편` (section), `gujeolNo` the key `구절번호` (passage number), and
`naeyong` the key `내용` (text body). -/
structure NoneoItem where
  pyeon : String
  gujeolNo : Int
  naeyong : String
deriving DecidableEq

/-- One raw corpus entry from `noneo_data.json`, which additionally
carries the key `원문` (original text) dropped by the simplification. -/
structure NoneoRawItem extends NoneoItem where
  wonmun : String
deriving DecidableEq

/-- Rendering of one sampled passage inside the advice prompt, the
f-string `f"{item['편']}-{item['구절번호']}: {item['내용']}"`. -/
def renderPassage (it : NoneoItem) : String :=
  it.pyeon ++ "-" ++ toString it.gujeolNo ++ ": " ++ it.naeyong

/-- The single-quote character used by Python `repr` of strings. -/
def pyReprQuote : Char := Char.ofNat 39

/-- Python `repr` of a string inside a list interpolation (quote
escaping is not modelled; the corpus text carries no quotes). -/
def pyReprStr (s : String) : String :=
  String.singleton pyReprQuote ++ s ++ String.singleton pyReprQuote

/-- Python `str` of a list of strings, as an f-string interpolates it. -/
def pyReprStrList (xs : List String) : String :=
  "[" ++ String.intercalate ", " (xs.map pyReprStr) ++ "]"

/-- Text of `_get_advice_template` before the interpolated passage list. -/
def adviceTemplateHead : String :=
  "\n        당신은 이제 고민에 대한 해결책을 제시해야 합니다.\n\n        STEP별로 작업을 수행하면서 그 결과를 아래의 <출력 결과> JSON 포맷에 작성하세요.\n        STEP-1. 앞선 대화에서 말한 <고민>과 <부족함>, <하위개념>과 그를 <선택한 이유>를 다시 자세하게 서술할 것\n        STEP-2. <부족함>을 보완할 수 있는 논어의 구절 중 하나만 다음 중에서 찾아서 반환할 것:\n        "

/-- Text of `_get_advice_template` after the interpolated passage list. -/
def adviceTemplateTail : String :=
  "\n        STEP-3. STEP-1에서 정리한 것을 토대로 <구절을 선택한 이유>를 적을 것\n        STEP-4. STEP-1에서 정리한 내용과 <구절을 선택한 이유>를 이용해 상대방을 진심으로 도울 수 있는 <조언>을 작성할 것. <조언>은 하위 개념과 함께 설명하며 길게 작성할 것\n        ---\n        <출력 결과> : \x7b\"STEP-1\": \x7b\"고민\": <고민>, \"부족\": <부족함>, \"하위개념\": <하위개념>, \"이유\": <선택한 이유>\x7d, \"STEP-2\": <논어구절>, \"STEP-3\": <구절을 선택한 이유>, \"STEP-4\": <조언>\x7d\n        "

/-- `GongjaProcessor._get_advice_template`: the advice prompt around the
interpolated list of rendered passages. -/
def get_advice_template (noneo : List NoneoItem) : String :=
  adviceTemplateHead ++ pyReprStrList (noneo.map renderPassage) ++ adviceTemplateTail

/- ### gongja.py: random sampling of corpus passages -/

/-- Selection core of `random.sample(population, k)`: draw the element at
a random position, remove it, and recurse — sampling without
replacement, with the randomness source `r` giving the draw at each
step. The `pop = []` fallback is unreachable under the length guard of
`random_sample`. -/
def sampleIdxAux {α : Type} (r : Nat → Nat) : Nat → List α → Nat → List α
  | _, _, 0 => []
  | step, pop, k + 1 =>
    if h : 0 < pop.length then
      let i := r step % pop.length
      pop.get ⟨i, Nat.mod_lt _ h⟩ :: sampleIdxAux r (step + 1) (pop.eraseIdx i) k
    else []

/-- Python `random.sample(pop, k)`: `none` models the raised
`ValueError` when `k` exceeds the population size. -/
def random_sample {α : Type} (r : Nat → Nat) (pop : List α) (k : Nat) : Option (List α) :=
  if k ≤ pop.length then some (sampleIdxAux r 0 pop k) else none

/-- `GongjaProcessor._load_random_noneo`: simplify each raw corpus entry
(dropping `원문`) and draw `count` of them without replacement. The
corpus `data` stands for the parsed content of `files/noneo_data.json`,
which is not part of the source tree. -/
def load_random_noneo (r : Nat → Nat) (data : List NoneoRawItem) (count : Nat) :
    Option (List NoneoItem) :=
  random_sample r (data.map NoneoRawItem.toNoneoItem) count

/- ### utils.py: CSV flattening and the pipeline -/

/-- A cell of the counseling-log CSV row before serialization: the
provenance strings, the JSON values copied from the two records, and
the two latency measurements (modelled as rationals). -/
inductive CsvCell where
  | s (v : String)
  | j (v : Json)
  | q (v : Rat)

/-- The `row_data` dict built by `save_to_csv`, in field order; `none`
models a `KeyError` while reading the source records. `now` stands for
`datetime.now().strftime(...)`; `source` and `email` arrive already
defaulted by the caller as in `process_and_save_concern`. -/
def row_data (now source email : String) (gominResult adviceResult : Json)
    (t1 t2 : Rat) : Option (List (String × CsvCell)) := do
  let oc ← gominResult.getKey "STEP-1"
  let s3 ← gominResult.getKey "STEP-3"
  let cs ← s3.getKey "요약"
  let s4 ← gominResult.getKey "STEP-4"
  let la ← s4.getKey "부족함"
  let cc ← s4.getKey "하위개념"
  let cr ← s4.getKey "이유"
  let sq ← adviceResult.getKey "STEP-2"
  let qr ← adviceResult.getKey "STEP-3"
  let ad ← adviceResult.getKey "STEP-4"
  pure [("timestamp", .s now), ("source", .s source), ("email", .s email),
        ("original_concern", .j oc), ("concern_summary", .j cs),
        ("lacking_aspect", .j la), ("concept", .j cc), ("concept_reason", .j cr),
        ("selected_quote", .j sq), ("quote_reason", .j qr), ("advice", .j ad),
        ("analysis_time", .q t1), ("advice_time", .q t2)]

/-- Observable effects of one `process_and_save_concern` run: the inputs
passed to the advice stage (`generate_advice`), the rows appended by
`save_to_csv`, and the returned value. -/
structure PipelineTrace where
  adviceCalls : List Json
  savedRows : List (List (String × CsvCell))
  returned : Option Json

/-- `process_and_save_concern`, with the already-computed classification
record `gominResult` (and its latency `t1`) standing for the completed
`processor.process_gomin(concern)` call and `adviceStage` for
`processor.generate_advice`. Returns `none` when a `KeyError`
propagates; the early branch on a falsy `STEP-2` returns `None` in the
source, here a trace with no advice call, no saved row and no result. -/
def process_and_save_concern (gominResult : Json) (t1 : Rat)
    (adviceStage : Json → Json × Rat) (now email source : String) :
    Option PipelineTrace := do
  let step2 ← gominResult.getKey "STEP-2"
  if step2.truthy = false then
    pure ⟨[], [], none⟩
  else
    let ar := adviceStage gominResult
    let row ← row_data now source email gominResult ar.1 t1 ar.2
    pure ⟨[gominResult], [row], some ar.1⟩

/- ### send_mail.py: per-email processing -/

/-- The subject test of `EmailProcessor.process_single_email`:
`"고민" in subject.lower() or "상담" in subject.lower()`. -/
def subject_triggered (subject : List Char) : Bool :=
  decide ("고민".data <:+: pyLower subject) || decide ("상담".data <:+: pyLower subject)

/-- Observable effects of `process_single_email` on one message: whether
the worry pipeline (`process_and_save_concern`) ran and whether an
auto-reply was sent. -/
structure EmailTrace where
  pipelineInvoked : Bool
  replySent : Bool
deriving DecidableEq

/-- `EmailProcessor.process_single_email` on the decoded subject, with
`pipelineReturn` standing for the value `process_and_save_concern`
returns when invoked; the reply is sent only when that value is truthy. -/
def process_single_email (pipelineReturn : Option Json) (subject : List Char) : EmailTrace :=
  if subject_triggered subject then
    ⟨true, match pipelineReturn with
           | some j => j.truthy
           | none => false⟩
  else ⟨false, false⟩

/- ### Helper lemmas on the string primitives -/

theorem dropWhile_cons_false {p : Char → Bool} {c : Char} {l : List Char} (h : p c = false) :
    List.dropWhile p (c :: l) = c :: l := by
  simp [List.dropWhile_cons, h]

theorem head_false_of_dropWhile_eq_self {p : Char → Bool} {c : Char} {cs : List Char}
    (h : List.dropWhile p (c :: cs) = c :: cs) : p c = false := by
  cases hc : p c with
  | false => rfl
  | true =>
    rw [List.dropWhile_cons, if_pos hc] at h
    have hle : (List.dropWhile p cs).length ≤ cs.length :=
      (List.dropWhile_suffix p).sublist.length_le
    have := congrArg List.length h
    simp at this
    omega

theorem dropAroundWhile_eq_self {p : Char → Bool} {l : List Char}
    (h1 : l.dropWhile p = l) (h2 : l.reverse.dropWhile p = l.reverse) :
    dropAroundWhile p l = l := by
  unfold dropAroundWhile
  rw [h1, h2, List.reverse_reverse]

theorem dropAroundWhile_parts {p : Char → Bool} {l : List Char}
    (h : dropAroundWhile p l = l) :
    l.dropWhile p = l ∧ l.reverse.dropWhile p = l.reverse := by
  have le1 : ((l.dropWhile p).reverse.dropWhile p).length ≤ (l.dropWhile p).length := by
    have := (@List.dropWhile_suffix _ (l.dropWhile p).reverse p).sublist.length_le
    simpa using this
  have le2 : (l.dropWhile p).length ≤ l.length := (List.dropWhile_suffix p).sublist.length_le
  have e2 := congrArg List.length h
  unfold dropAroundWhile at e2
  simp only [List.length_reverse] at e2
  have hfront : l.dropWhile p = l :=
    (List.dropWhile_suffix p).sublist.eq_of_length (by omega)
  refine ⟨hfront, ?_⟩
  unfold dropAroundWhile at h
  rw [hfront] at h
  have := congrArg List.reverse h
  rwa [List.reverse_reverse] at this

theorem dropWhile_append_left_of {p : Char → Bool} {s : List Char}
    (hs : s.dropWhile p = s) (hne : s ≠ []) (X : List Char) :
    (s ++ X).dropWhile p = s ++ X := by
  cases s with
  | nil => exact absurd rfl hne
  | cons c cs =>
    have hc : p c = false := head_false_of_dropWhile_eq_self hs
    rw [List.cons_append]
    exact dropWhile_cons_false hc

theorem dropThroughFirst_append {m : List Char} (rest : List Char) (hm : m ≠ []) :
    dropThroughFirst m (m ++ rest) = rest := by
  obtain ⟨x, xs, rfl⟩ : ∃ x xs, m = x :: xs := by
    cases m with
    | nil => exact absurd rfl hm
    | cons x xs => exact ⟨x, xs, rfl⟩
  rw [List.cons_append]
  simp only [dropThroughFirst]
  rw [if_pos (by rw [← List.cons_append]; exact List.prefix_append _ _)]
  rw [← List.cons_append, List.drop_left]

theorem takeUntil_of_not_infix {m l : List Char} (h : ¬ m <:+: l) : takeUntil m l = l := by
  induction l with
  | nil => simp [takeUntil]
  | cons c cs ih =>
    have h1 : ¬ m <+: (c :: cs) := fun hp => h hp.isInfix
    have h2 : ¬ m <:+: cs := fun hi => h (List.infix_cons hi)
    simp only [takeUntil]
    rw [if_neg h1, ih h2]

theorem dropAroundWhile_cons_of_true {p : Char → Bool} {c : Char} {l : List Char}
    (hc : p c = true) : dropAroundWhile p (c :: l) = dropAroundWhile p l := by
  unfold dropAroundWhile
  rw [List.dropWhile_cons, if_pos hc]

theorem markerStep_append_marker {rest : List Char} (h : ¬ resultMarker <:+: rest) :
    markerStep (resultMarker ++ rest) = pstrip rest := by
  unfold markerStep
  rw [if_pos ((List.prefix_append _ _).isInfix)]
  unfold splitSecond
  rw [dropThroughFirst_append rest (by decide), takeUntil_of_not_infix h]

theorem cleanJsonText_eq_self {s : List Char} (hm : ¬ resultMarker <:+: s)
    (ht : pstrip s = s) (hf : ¬ fenceMarker <+: s)
    (hs : pstripSet stripColonSet s = s) :
    cleanJsonText s = s := by
  unfold cleanJsonText markerStep fenceStep
  rw [if_neg hm, ht, if_neg hf, hs]

theorem pstrip_append_nl3 {s : List Char} (ht : pstrip s = s) (h5 : s ≠ []) :
    pstrip (s ++ "\n```".data) = s ++ "\n```".data := by
  obtain ⟨hfr, hbk⟩ := @dropAroundWhile_parts isPyWs _ ht
  unfold pstrip dropAroundWhile
  rw [dropWhile_append_left_of hfr h5]
  rw [List.reverse_append]
  have hrev : ("\n```".data : List Char).reverse = '`' :: '`' :: '`' :: '\n' :: [] := rfl
  rw [hrev]
  simp only [List.cons_append, List.nil_append]
  rw [dropWhile_cons_false (by decide)]
  simp [List.reverse_append]

theorem pstrip_append_newline {s : List Char} (ht : pstrip s = s) (h5 : s ≠ []) :
    pstrip (s ++ ['\n']) = s := by
  obtain ⟨hfr, hbk⟩ := @dropAroundWhile_parts isPyWs _ ht
  unfold pstrip dropAroundWhile
  rw [dropWhile_append_left_of hfr h5]
  rw [List.reverse_append]
  have hrev : (['\n'] : List Char).reverse = ['\n'] := rfl
  rw [hrev]
  simp only [List.cons_append, List.nil_append, List.singleton_append]
  rw [List.dropWhile_cons, if_pos (by decide)]
  rw [hbk, List.reverse_reverse]

theorem fenceStep_fencedJson {s : List Char} (ht : pstrip s = s) (h5 : s ≠ []) :
    fenceStep ("```json\n".data ++ (s ++ "\n```".data)) = s := by
  unfold fenceStep
  rw [if_pos ⟨"json\n".data ++ (s ++ "\n```".data), rfl⟩]
  have hfind : List.findIdx? (fun c => c = '\n')
      ("```json\n".data ++ (s ++ "\n```".data)) = some 7 := by
    show List.findIdx? (fun c => c = '\n')
        ('`' :: '`' :: '`' :: 'j' :: 's' :: 'o' :: 'n' :: '\n' :: (s ++ "\n```".data)) = some 7
    simp [List.findIdx?_cons]
  simp only [hfind]
  have hdrop : ("```json\n".data ++ (s ++ "\n```".data)).drop 7 = '\n' :: (s ++ "\n```".data) := rfl
  rw [hdrop]
  have hmid : pstrip ('\n' :: (s ++ "\n```".data)) = s ++ "\n```".data := by
    rw [show pstrip ('\n' :: (s ++ "\n```".data)) = pstrip (s ++ "\n```".data) from
      dropAroundWhile_cons_of_true (by decide)]
    exact pstrip_append_nl3 ht h5
  rw [hmid]
  rw [if_pos ⟨s ++ ['\n'], by rw [List.append_assoc]; rfl⟩]
  have hlen : (s ++ "\n```".data).length = s.length + 4 := by
    rw [List.length_append]; rfl
  have h43 : s.length + 4 - 3 = s.length + 1 := by omega
  rw [hlen, h43]
  rw [List.take_append 1]
  have htake : ("\n```".data : List Char).take 1 = ['\n'] := rfl
  rw [htake]
  exact pstrip_append_newline ht h5

theorem pstrip_fencedJson {s : List Char} :
    pstrip ("```json\n".data ++ (s ++ "\n```".data)) =
      "```json\n".data ++ (s ++ "\n```".data) := by
  unfold pstrip
  apply dropAroundWhile_eq_self
  · show List.dropWhile isPyWs
        ('`' :: ('`' :: '`' :: 'j' :: 's' :: 'o' :: 'n' :: '\n' :: (s ++ "\n```".data))) = _
    exact dropWhile_cons_false (by decide)
  · rw [List.reverse_append, List.reverse_append]
    have hrev : ("\n```".data : List Char).reverse = '`' :: '`' :: '`' :: '\n' :: [] := rfl
    rw [hrev]
    simp only [List.cons_append, List.nil_append]
    exact dropWhile_cons_false (by decide)

theorem cleanJsonText_markerFencedWrap {s : List Char}
    (h1 : ¬ resultMarker <:+: ("```json\n".data ++ (s ++ "\n```".data)))
    (ht : pstrip s = s) (hs : pstripSet stripColonSet s = s) (h5 : s ≠ []) :
    cleanJsonText (markerFencedWrap s) = s := by
  unfold cleanJsonText
  have h0 : markerFencedWrap s =
      resultMarker ++ ("```json\n".data ++ (s ++ "\n```".data)) := by
    unfold markerFencedWrap
    simp [List.append_assoc]
  rw [h0, markerStep_append_marker h1, pstrip_fencedJson, fenceStep_fencedJson ht h5, hs]

/- ### Claim theorems -/

/-- C1: For every model output consisting of the marker, a
triple-backtick fenced block with a language-tag first line, and a
closing fence around a JSON object body, extraction strips the marker,
the language-tag line, and the trailing fence, and returns the same
structured record as parsing (and as extracting from) the unwrapped
body; in particular on `"```json\n{"a":1}\n```"` the extractor returns
the mapping `{"a": 1}`. -/
theorem extract_markerFenced_eq_unwrapped {s : List Char}
    (h1 : ¬ resultMarker <:+: ("```json\n".data ++ (s ++ "\n```".data)))
    (ht : pstrip s = s) (hs : pstripSet stripColonSet s = s)
    (hf : ¬ fenceMarker <+: s) (h5 : s ≠ []) :
    extractRecord (markerFencedWrap s) = json_loads s ∧
    extractRecord s = json_loads s ∧
    (parse_response "```json\n\x7b\"a\":1\x7d\n```").outcome =
      Except.ok (Json.obj [("a", Json.num 1)]) := by
  have hsub : s <:+: "```json\n".data ++ (s ++ "\n```".data) := by
    rw [← List.append_assoc]
    exact List.infix_append _ _ _
  have hm : ¬ resultMarker <:+: s := fun hx => h1 (hx.trans hsub)
  refine ⟨?_, ?_, rfl⟩
  · unfold extractRecord
    rw [cleanJsonText_markerFencedWrap h1 ht hs h5]
  · unfold extractRecord
    rw [cleanJsonText_eq_self hm ht hf hs]

/-- Witness for C1 at the concrete body `{"a":2}`. -/
theorem extract_markerFenced_eq_unwrapped_witness :
    extractRecord (markerFencedWrap "\x7b\"a\":2\x7d".data) = json_loads "\x7b\"a\":2\x7d".data ∧
    extractRecord "\x7b\"a\":2\x7d".data = json_loads "\x7b\"a\":2\x7d".data ∧
    (parse_response "```json\n\x7b\"a\":1\x7d\n```").outcome =
      Except.ok (Json.obj [("a", Json.num 1)]) :=
  extract_markerFenced_eq_unwrapped (by decide) (by decide) (by decide) (by decide) (by decide)

/-- C7: The marker-strip, fence-strip and trim passes of extraction are
idempotent on already-clean JSON text (no marker, no fence, no
surrounding whitespace or colons): they leave the text unchanged, so
re-running the cleaning on its own output is a no-op. -/
theorem cleanJsonText_idempotent_on_clean {s : List Char}
    (hm : ¬ resultMarker <:+: s) (ht : pstrip s = s)
    (hf : ¬ fenceMarker <+: s) (hs : pstripSet stripColonSet s = s) :
    cleanJsonText s = s ∧ cleanJsonText (cleanJsonText s) = cleanJsonText s := by
  have h := cleanJsonText_eq_self hm ht hf hs
  exact ⟨h, by rw [h]; exact h⟩

/-- Witness for C7 at the concrete clean text `{"a":1}`. -/
theorem cleanJsonText_idempotent_on_clean_witness :
    cleanJsonText "\x7b\"a\":1\x7d".data = "\x7b\"a\":1\x7d".data ∧
    cleanJsonText (cleanJsonText "\x7b\"a\":1\x7d".data) =
      cleanJsonText "\x7b\"a\":1\x7d".data :=
  cleanJsonText_idempotent_on_clean (by decide) (by decide) (by decide) (by decide)

/-- C2 counterexample: when the marker occurs twice, the marker pass
keeps only the segment between the first and second occurrences, not
the entire remainder after the first marker — and extraction succeeds
on that segment, showing the tail was discarded. -/
theorem markerStep_not_entire_remainder :
    markerStep "pre<출력 결과>\x7b\"a\":1\x7d<출력 결과>post".data ≠
      pstrip (dropThroughFirst resultMarker "pre<출력 결과>\x7b\"a\":1\x7d<출력 결과>post".data) ∧
    extractRecord "pre<출력 결과>\x7b\"a\":1\x7d<출력 결과>post".data =
      some (Json.obj [("a", Json.num 1)]) :=
  ⟨by decide, rfl⟩

/-- C2 (amended): extraction discards everything up to and including the
first marker and keeps the text only up to the next marker occurrence;
when the marker occurs exactly once that is the entire (trimmed)
remainder, and in every case the text before the first marker never
influences the extracted record. -/
theorem markerStep_amended :
    (∀ c₁ c₂ : List Char, resultMarker <:+: c₁ → resultMarker <:+: c₂ →
      dropThroughFirst resultMarker c₁ = dropThroughFirst resultMarker c₂ →
      extractRecord c₁ = extractRecord c₂) ∧
    (∀ c : List Char, resultMarker <:+: c →
      ¬ resultMarker <:+: dropThroughFirst resultMarker c →
      markerStep c = pstrip (dropThroughFirst resultMarker c)) := by
  constructor
  · intro c₁ c₂ h₁ h₂ hr
    unfold extractRecord cleanJsonText markerStep splitSecond
    rw [if_pos h₁, if_pos h₂, hr]
  · intro c h hn
    unfold markerStep splitSecond
    rw [if_pos h, takeUntil_of_not_infix hn]

/-- Witness for the amended C2 at concrete inputs: two texts with the
same remainder but different prefixes extract identically, and with a
single marker occurrence the whole remainder is kept. -/
theorem markerStep_amended_witness :
    extractRecord "A<출력 결과>\x7b\x7d".data = extractRecord "BB<출력 결과>\x7b\x7d".data ∧
    markerStep "A<출력 결과>\x7b\x7d".data =
      pstrip (dropThroughFirst resultMarker "A<출력 결과>\x7b\x7d".data) :=
  ⟨markerStep_amended.1 _ _ (by decide) (by decide) (by decide),
   markerStep_amended.2 _ (by decide) (by decide)⟩

/-- C3 counterexample: on the malformed input `"not json at all"` the
raised error is the fixed-message `ValueError`; it does not carry the
original text (nor the attempted text) as the claim states. -/
theorem parse_error_not_carrying_text :
    (parse_response "not json at all").outcome = Except.error "JSON 파싱 실패" ∧
    ¬ ("not json at all".data <:+: "JSON 파싱 실패".data) :=
  ⟨rfl, by decide⟩

/-- C3 (amended): when structured parsing of the cleaned text fails,
`_parse_response` raises a distinct, catchable `ValueError` whose
payload is the fixed message `JSON 파싱 실패`; the original raw text and
the text attempted to parse are surfaced as printed diagnostics, not
carried on the error. -/
theorem parse_error_fixed_message_diagnostics {c : String}
    (h : json_loads (cleanJsonText c.data) = none) :
    (parse_response c).outcome = Except.error "JSON 파싱 실패" ∧
    ("원본 응답: " ++ c) ∈ (parse_response c).printed ∧
    ("파싱 시도한 텍스트: " ++ String.mk (cleanJsonText c.data)) ∈ (parse_response c).printed := by
  simp only [parse_response]
  rw [h]
  refine ⟨rfl, ?_, ?_⟩
  · simp
  · simp

/-- Witness for the amended C3 at the concrete input `"not json at all"`. -/
theorem parse_error_fixed_message_diagnostics_witness :
    (parse_response "not json at all").outcome = Except.error "JSON 파싱 실패" ∧
    ("원본 응답: " ++ "not json at all") ∈ (parse_response "not json at all").printed ∧
    ("파싱 시도한 텍스트: " ++ String.mk (cleanJsonText "not json at all".data)) ∈
      (parse_response "not json at all").printed :=
  parse_error_fixed_message_diagnostics rfl

theorem dropAroundWhile_cons_exists {p : Char → Bool} (c : Char) (X : List Char)
    (hc : p c = false) : ∃ Y, dropAroundWhile p (c :: X) = c :: Y := by
  unfold dropAroundWhile
  rw [dropWhile_cons_false hc, List.reverse_cons, List.dropWhile_append]
  by_cases he : (X.reverse.dropWhile p).isEmpty
  · rw [if_pos he]
    refine ⟨[], ?_⟩
    rw [show List.dropWhile p [c] = [c] from dropWhile_cons_false hc]
    rfl
  · rw [if_neg he]
    refine ⟨(X.reverse.dropWhile p).reverse, ?_⟩
    rw [List.reverse_append]
    rfl

theorem parseJsonValue_backtick (fuel : Nat) (rest : List Char) :
    parseJsonValue fuel ('`' :: rest) = none := by
  cases fuel with
  | zero => rfl
  | succ k =>
    have hskip : skipJsonWs ('`' :: rest) = '`' :: rest := dropWhile_cons_false (by decide)
    simp only [parseJsonValue, hskip]
    rw [if_neg (by decide), if_neg (by decide), if_neg (by decide), if_neg (by decide),
       if_neg (by decide), if_neg (by decide), if_neg (by decide)]

theorem json_loads_backtick (rest : List Char) : json_loads ('`' :: rest) = none := by
  unfold json_loads
  rw [parseJsonValue_backtick]

/-- C10 counterexample: on a fenced single-line text with no newline,
the fence pass does remove the trailing fence (contradicting the claim
that it removes nothing), while the opening backticks stay and the
parse of the otherwise-valid JSON fails. -/
theorem fenceStep_no_newline_removes_trailing :
    fenceStep "```json \x7b\"a\":1\x7d```".data = "```json \x7b\"a\":1\x7d".data ∧
    fenceStep "```json \x7b\"a\":1\x7d```".data ≠ "```json \x7b\"a\":1\x7d```".data ∧
    extractRecord "```json \x7b\"a\":1\x7d```".data = none :=
  ⟨rfl, by decide, rfl⟩

/-- C10 (amended): when the text after marker-strip and trim starts with
a triple-backtick fence but contains no newline, the fence pass leaves
the opening backticks and the language tag in place, yet still strips a
trailing fence when one is present; structured parsing is then
attempted on text that still begins with the backticks and fails. -/
theorem fenceStep_no_newline_amended {l : List Char}
    (hm : ¬ resultMarker <:+: l) (ht : pstrip l = l)
    (hpre : fenceMarker <+: l)
    (hnl : l.findIdx? (fun c => c = '\n') = none)
    (hsuf : fenceMarker <:+ l) (hlen : 4 ≤ l.length) :
    fenceStep l = pstrip (l.take (l.length - 3)) ∧
    (∃ rest, cleanJsonText l = '`' :: rest) ∧
    extractRecord l = none := by
  have hfs : fenceStep l = pstrip (l.take (l.length - 3)) := by
    unfold fenceStep
    rw [if_pos hpre]
    simp only [hnl]
    rw [if_pos hsuf]
  obtain ⟨r, hr⟩ : ∃ r, l = '`' :: '`' :: '`' :: r := by
    obtain ⟨t, ht2⟩ := hpre
    exact ⟨t, by rw [← ht2]; rfl⟩
  have hr1 : 1 ≤ r.length := by
    rw [hr] at hlen
    simp at hlen
    omega
  obtain ⟨m, hm2⟩ : ∃ m, r.length = m + 1 := ⟨r.length - 1, by omega⟩
  have htake : l.take (l.length - 3) = '`' :: (('`' :: '`' :: r).take m) := by
    rw [hr]
    show ('`' :: '`' :: '`' :: r).take (r.length + 3 - 3) = _
    rw [show r.length + 3 - 3 = r.length from by omega, hm2, List.take_succ_cons]
  have hms : markerStep l = l := by
    unfold markerStep
    rw [if_neg hm, ht]
  obtain ⟨Y, hY⟩ := @dropAroundWhile_cons_exists isPyWs '`'
    (('`' :: '`' :: r).take m) (by decide)
  have hfs2 : fenceStep l = '`' :: Y := by
    rw [hfs, htake]
    exact hY
  obtain ⟨Z, hZ⟩ := @dropAroundWhile_cons_exists (memSet stripColonSet) '`' Y (by decide)
  have hclean : cleanJsonText l = '`' :: Z := by
    unfold cleanJsonText
    rw [hms, hfs2]
    exact hZ
  refine ⟨hfs, ⟨Z, hclean⟩, ?_⟩
  unfold extractRecord
  rw [hclean]
  exact json_loads_backtick Z

/-- Witness for the amended C10 at the concrete input
`"```json {"a":1}```"`. -/
theorem fenceStep_no_newline_amended_witness :
    fenceStep "```json \x7b\"a\":1\x7d```".data =
      pstrip ("```json \x7b\"a\":1\x7d```".data.take
        ("```json \x7b\"a\":1\x7d```".data.length - 3)) ∧
    (∃ rest, cleanJsonText "```json \x7b\"a\":1\x7d```".data = '`' :: rest) ∧
    extractRecord "```json \x7b\"a\":1\x7d```".data = none :=
  fenceStep_no_newline_amended (by decide) (by decide) (by decide) (by decide)
    (by decide) (by decide)

/-- C4: whenever the classification record carries a falsy `STEP-2`
(`is_worry` false), the pipeline makes no advice-stage call, appends no
log row, and returns nothing downstream. -/
theorem pipeline_stops_on_not_worry {g : Json} {t1 : Rat}
    {adv : Json → Json × Rat} {now email source : String} {v : Json}
    (hget : g.getKey "STEP-2" = some v) (hv : v.truthy = false) :
    process_and_save_concern g t1 adv now email source = some ⟨[], [], none⟩ := by
  unfold process_and_save_concern
  rw [hget]
  simp [hv]

/-- Witness for C4 at a concrete classification record with
`STEP-2 = false`. -/
theorem pipeline_stops_on_not_worry_witness :
    process_and_save_concern (Json.obj [("STEP-2", Json.bool false)]) 0
      (fun j => (j, 0)) "t" "" "console" = some ⟨[], [], none⟩ :=
  pipeline_stops_on_not_worry
    (show (Json.obj [("STEP-2", Json.bool false)]).getKey "STEP-2" =
      some (Json.bool false) from rfl) rfl

/-- C6 counterexample: two distinct record pairs — differing in the
classification record's `STEP-2` (`is_worry`) and in the advice
record's restated context `STEP-1` — flatten to the same LogRow, so the
flattening does not reproduce every field of both source records. -/
theorem logrow_drops_fields :
    row_data "T" "console" ""
      (Json.obj [("STEP-1", Json.str "x"), ("STEP-2", Json.bool true),
        ("STEP-3", Json.obj [("요약", Json.str "s")]),
        ("STEP-4", Json.obj [("부족함", Json.str "l"), ("하위개념", Json.str "c"),
          ("이유", Json.str "r")])])
      (Json.obj [("STEP-1", Json.str "ctx1"), ("STEP-2", Json.str "q"),
        ("STEP-3", Json.str "qr"), ("STEP-4", Json.str "adv")]) 0 0 =
    row_data "T" "console" ""
      (Json.obj [("STEP-1", Json.str "x"), ("STEP-2", Json.bool false),
        ("STEP-3", Json.obj [("요약", Json.str "s")]),
        ("STEP-4", Json.obj [("부족함", Json.str "l"), ("하위개념", Json.str "c"),
          ("이유", Json.str "r")])])
      (Json.obj [("STEP-1", Json.str "ctx2"), ("STEP-2", Json.str "q"),
        ("STEP-3", Json.str "qr"), ("STEP-4", Json.str "adv")]) 0 0 ∧
    (Json.obj [("STEP-1", Json.str "x"), ("STEP-2", Json.bool true),
        ("STEP-3", Json.obj [("요약", Json.str "s")]),
        ("STEP-4", Json.obj [("부족함", Json.str "l"), ("하위개념", Json.str "c"),
          ("이유", Json.str "r")])]) ≠
      (Json.obj [("STEP-1", Json.str "x"), ("STEP-2", Json.bool false),
        ("STEP-3", Json.obj [("요약", Json.str "s")]),
        ("STEP-4", Json.obj [("부족함", Json.str "l"), ("하위개념", Json.str "c"),
          ("이유", Json.str "r")])]) ∧
    (Json.obj [("STEP-1", Json.str "ctx1"), ("STEP-2", Json.str "q"),
        ("STEP-3", Json.str "qr"), ("STEP-4", Json.str "adv")]) ≠
      (Json.obj [("STEP-1", Json.str "ctx2"), ("STEP-2", Json.str "q"),
        ("STEP-3", Json.str "qr"), ("STEP-4", Json.str "adv")]) := by
  refine ⟨rfl, ?_, ?_⟩
  · intro h
    exact absurd
      (congrArg (fun j => Json.truthy ((Json.getKey j "STEP-2").getD Json.null)) h)
      (by decide)
  · intro h
    exact absurd
      (congrArg (fun j =>
        match Json.getKey j "STEP-1" with
        | some (Json.str s) => s
        | _ => "") h)
      (by decide)

/-- C6 (amended): the flattened LogRow reproduces unchanged exactly the
fields it includes — the classification record's raw input, summary,
lacking aspect, chosen sub-concept and reason, and the advice record's
selected passage, passage reason and advice, plus provenance and the
two latencies; the classification `STEP-2` flag and the advice record's
restated context `STEP-1` are not part of the row. -/
theorem logrow_reproduces_included_fields {now source email : String}
    {g a : Json} {t1 t2 : Rat} {oc s3 cs s4 la cc cr sq qr ad : Json}
    (h1 : g.getKey "STEP-1" = some oc) (h2 : g.getKey "STEP-3" = some s3)
    (h3 : s3.getKey "요약" = some cs) (h4 : g.getKey "STEP-4" = some s4)
    (h5 : s4.getKey "부족함" = some la) (h6 : s4.getKey "하위개념" = some cc)
    (h7 : s4.getKey "이유" = some cr) (h8 : a.getKey "STEP-2" = some sq)
    (h9 : a.getKey "STEP-3" = some qr) (h10 : a.getKey "STEP-4" = some ad) :
    row_data now source email g a t1 t2 =
      some [("timestamp", .s now), ("source", .s source), ("email", .s email),
        ("original_concern", .j oc), ("concern_summary", .j cs),
        ("lacking_aspect", .j la), ("concept", .j cc), ("concept_reason", .j cr),
        ("selected_quote", .j sq), ("quote_reason", .j qr), ("advice", .j ad),
        ("analysis_time", .q t1), ("advice_time", .q t2)] := by
  unfold row_data
  simp [h1, h2, h3, h4, h5, h6, h7, h8, h9, h10]

/-- Witness for the amended C6 at concrete records. -/
theorem logrow_reproduces_included_fields_witness :
    row_data "T" "console" ""
      (Json.obj [("STEP-1", Json.str "x"), ("STEP-2", Json.bool true),
        ("STEP-3", Json.obj [("요약", Json.str "s")]),
        ("STEP-4", Json.obj [("부족함", Json.str "l"), ("하위개념", Json.str "c"),
          ("이유", Json.str "r")])])
      (Json.obj [("STEP-1", Json.str "ctx"), ("STEP-2", Json.str "q"),
        ("STEP-3", Json.str "qr"), ("STEP-4", Json.str "adv")]) 1 2 =
      some [("timestamp", .s "T"), ("source", .s "console"), ("email", .s ""),
        ("original_concern", .j (Json.str "x")), ("concern_summary", .j (Json.str "s")),
        ("lacking_aspect", .j (Json.str "l")), ("concept", .j (Json.str "c")),
        ("concept_reason", .j (Json.str "r")),
        ("selected_quote", .j (Json.str "q")), ("quote_reason", .j (Json.str "qr")),
        ("advice", .j (Json.str "adv")),
        ("analysis_time", .q 1), ("advice_time", .q 2)] :=
  logrow_reproduces_included_fields rfl rfl rfl rfl rfl rfl rfl rfl rfl rfl

theorem get_cons_eraseIdx_perm {α : Type} :
    ∀ (l : List α) (i : Nat) (h : i < l.length),
      List.Perm (l.get ⟨i, h⟩ :: l.eraseIdx i) l := by
  intro l
  induction l with
  | nil => intro i h; simp at h
  | cons a t ih =>
    intro i h
    cases i with
    | zero => simp [List.eraseIdx]
    | succ i =>
      have h2 : i < t.length := by simpa using h
      rw [List.eraseIdx_cons_succ, List.get_cons_succ]
      exact (List.Perm.swap a (t.get ⟨i, h2⟩) _).trans ((ih i h2).cons a)

theorem sampleIdxAux_subperm {α : Type} (r : Nat → Nat) :
    ∀ (k step : Nat) (pop : List α), List.Subperm (sampleIdxAux r step pop k) pop := by
  intro k
  induction k with
  | zero => intro step pop; exact List.nil_subperm
  | succ k ih =>
    intro step pop
    by_cases h : 0 < pop.length
    · simp only [sampleIdxAux]
      rw [dif_pos h]
      have hsub := ih (step + 1) (pop.eraseIdx (r step % pop.length))
      have hperm := get_cons_eraseIdx_perm pop (r step % pop.length) (Nat.mod_lt _ h)
      exact ((List.subperm_cons _).mpr hsub).trans hperm.subperm
    · simp only [sampleIdxAux]
      rw [dif_neg h]
      exact List.nil_subperm

theorem sampleIdxAux_length {α : Type} (r : Nat → Nat) :
    ∀ (k step : Nat) (pop : List α), k ≤ pop.length →
      (sampleIdxAux r step pop k).length = k := by
  intro k
  induction k with
  | zero => intro step pop _; rfl
  | succ k ih =>
    intro step pop h
    have hpos : 0 < pop.length := by omega
    simp only [sampleIdxAux]
    rw [dif_pos hpos]
    simp only [List.length_cons]
    rw [ih (step + 1) (pop.eraseIdx (r step % pop.length)) ?_]
    rw [List.length_eraseIdx, if_pos (Nat.mod_lt _ hpos)]
    omega

/-- C5: for every corpus and randomness source, when the corpus has at
least `count` entries, `_load_random_noneo` yields a sample of exactly
`count` simplified passages drawn without replacement (a sub-permutation
of the simplified corpus), the advice prompt renders each as
`{section}-{number}: {text}` and lists exactly `count` of them; when the
corpus has fewer than `count` entries, the defined error is raised. -/
theorem advice_prompt_sample_spec (r : Nat → Nat) (data : List NoneoRawItem) (count : Nat) :
    (count ≤ data.length →
      ∃ smp, load_random_noneo r data count = some smp ∧
        smp.length = count ∧
        List.Subperm smp (data.map NoneoRawItem.toNoneoItem) ∧
        (smp.map renderPassage).length = count ∧
        get_advice_template smp =
          adviceTemplateHead ++ pyReprStrList (smp.map renderPassage) ++ adviceTemplateTail) ∧
    (data.length < count → load_random_noneo r data count = none) := by
  constructor
  · intro h
    have hlen : count ≤ (data.map NoneoRawItem.toNoneoItem).length := by
      rw [List.length_map]; exact h
    refine ⟨sampleIdxAux r 0 (data.map NoneoRawItem.toNoneoItem) count, ?_, ?_, ?_, ?_, rfl⟩
    · unfold load_random_noneo random_sample
      rw [if_pos hlen]
    · exact sampleIdxAux_length r count 0 _ hlen
    · exact sampleIdxAux_subperm r count 0 _
    · rw [List.length_map]
      exact sampleIdxAux_length r count 0 _ hlen
  · intro h
    unfold load_random_noneo random_sample
    rw [if_neg (by rw [List.length_map]; omega)]

/-- Witness for C5 on a two-entry corpus: sampling one succeeds with the
stated properties, sampling five raises. -/
theorem advice_prompt_sample_spec_witness :
    (∃ smp, load_random_noneo (fun _ => 0)
        [⟨⟨"학이", 1, "본문"⟩, "원문"⟩, ⟨⟨"위정", 2, "본문둘"⟩, "원문둘"⟩] 1 = some smp ∧
      smp.length = 1 ∧
      List.Subperm smp (([⟨⟨"학이", 1, "본문"⟩, "원문"⟩,
        ⟨⟨"위정", 2, "본문둘"⟩, "원문둘"⟩] : List NoneoRawItem).map NoneoRawItem.toNoneoItem) ∧
      (smp.map renderPassage).length = 1 ∧
      get_advice_template smp =
        adviceTemplateHead ++ pyReprStrList (smp.map renderPassage) ++ adviceTemplateTail) ∧
    load_random_noneo (fun _ => 0)
      [⟨⟨"학이", 1, "본문"⟩, "원문"⟩, ⟨⟨"위정", 2, "본문둘"⟩, "원문둘"⟩] 5 = none :=
  ⟨(advice_prompt_sample_spec (fun _ => 0) _ 1).1 (by decide),
   (advice_prompt_sample_spec (fun _ => 0) _ 5).2 (by decide)⟩

/-- C8: classification-prompt construction is deterministic — on equal
input strings it produces byte-identical prompts — and the worry text
appears verbatim inside the triple-backtick fenced block of the
prompt. -/
theorem gomin_template_deterministic_verbatim (t : String) :
    get_gomin_template t = get_gomin_template t ∧
    ("```" ++ t ++ "```").data <:+: (get_gomin_template t).data := by
  refine ⟨rfl, ⟨gominTemplateHead.data, gominTemplateTail.data, ?_⟩⟩
  unfold get_gomin_template
  simp [String.data_append, List.append_assoc]

theorem char_ofNat_toNat {n : Nat} (h : n < 55296) : (Char.ofNat n).toNat = n := by
  unfold Char.ofNat
  rw [dif_pos (Or.inl h)]
  rfl

theorem pyLowerChar_eq_of_high {c d : Char} (hd : 123 ≤ d.toNat)
    (h : pyLowerChar c = d) : c = d := by
  unfold pyLowerChar at h
  by_cases hc : 65 ≤ c.toNat ∧ c.toNat ≤ 90
  · rw [if_pos hc] at h
    exfalso
    have h2 : (Char.ofNat (c.toNat + 32)).toNat = c.toNat + 32 :=
      char_ofNat_toNat (by omega)
    rw [h] at h2
    omega
  · rwa [if_neg hc] at h

theorem map_pyLower_eq_high : ∀ {b t : List Char}, (∀ c ∈ t, 123 ≤ c.toNat) →
    List.map pyLowerChar b = t → b = t := by
  intro b
  induction b with
  | nil =>
    intro t _ h
    simp only [List.map_nil] at h
    exact h
  | cons x xs ih =>
    intro t hh h
    cases t with
    | nil => simp at h
    | cons y ys =>
      simp only [List.map_cons, List.cons.injEq] at h
      have hx : x = y := pyLowerChar_eq_of_high (hh y (by simp)) h.1
      rw [hx, ih (fun c hc => hh c (by simp [hc])) h.2]

theorem infix_of_infix_pyLower {t l : List Char} (hh : ∀ c ∈ t, 123 ≤ c.toNat)
    (h : t <:+: pyLower l) : t <:+: l := by
  obtain ⟨pre, post, hsplit⟩ := h
  have hmap : List.map pyLowerChar l = (pre ++ t) ++ post := by
    unfold pyLower at hsplit
    exact hsplit.symm
  rw [List.map_eq_append_iff] at hmap
  obtain ⟨l₁, l₂, hl, hm1, hm2⟩ := hmap
  have hmap2 : List.map pyLowerChar l₁ = pre ++ t := hm1
  rw [List.map_eq_append_iff] at hmap2
  obtain ⟨a, b, hl1, hma, hmb⟩ := hmap2
  have hb : b = t := map_pyLower_eq_high hh hmb
  exact ⟨a, l₂, by rw [hl, hl1, hb, List.append_assoc]⟩

/-- C9: an inbound message whose decoded subject contains neither of
the trigger substrings `고민` and `상담` triggers no worry-pipeline run
and no outbound auto-reply. -/
theorem email_without_trigger_not_processed {pr : Option Json} {subject : List Char}
    (h1 : ¬ ("고민".data <:+: subject)) (h2 : ¬ ("상담".data <:+: subject)) :
    process_single_email pr subject = ⟨false, false⟩ := by
  have hl1 : ¬ ("고민".data <:+: pyLower subject) := fun hx =>
    h1 (infix_of_infix_pyLower (by decide) hx)
  have hl2 : ¬ ("상담".data <:+: pyLower subject) := fun hx =>
    h2 (infix_of_infix_pyLower (by decide) hx)
  have ht : subject_triggered subject = false := by
    unfold subject_triggered
    rw [decide_eq_false hl1, decide_eq_false hl2]
    rfl
  unfold process_single_email
  rw [ht]
  rfl

/-- Witness for C9 at a concrete subject without trigger substrings. -/
theorem email_without_trigger_not_processed_witness :
    process_single_email (some (Json.obj [])) "hello there".data = ⟨false, false⟩ :=
  email_without_trigger_not_processed (by decide) (by decide)
